import Mathlib

/-!
# BufferedChannel

A shallow embedding of `src/Channel/buffered_channel.h`: a bounded FIFO channel
guarded by one critical section and two manual-reset events.

The private fields of the class become a record.  Every stretch of code that
runs between `EnterCriticalSection` and the matching `LeaveCriticalSection`
becomes one function on that record, returning the new record together with
what the calling thread does next (return, throw, or park in
`WaitForSingleObject`).  Threads are then interleaved by a step function over
a table of per-thread program points.
-/

namespace Channel

/-! ## Channel state -/

/-- Fields of `BufferedChannel<T>` (lines 120-126).  `has_space` and `has_data`
hold the signalled state of the two manual-reset events. -/
structure BufferedChannel (T : Type) where
  queue : List T
  buffer_size : Nat
  closed : Bool
  has_space : Bool
  has_data : Bool
  deriving DecidableEq, Repr

/-- What the calling thread does when it leaves the critical section in `Send`. -/
inductive SendOutcome where
  /-- normal return, line 65 -/
  | returned
  /-- throws `std::runtime_error("Cannot send to closed channel")`, lines 35 and 47 -/
  | threw
  /-- parks in `WaitForSingleObject(has_space, INFINITE)`, line 42 -/
  | waiting
  deriving DecidableEq, Repr

/-- What the calling thread does when it leaves the critical section in `Recv`. -/
inductive RecvOutcome (T : Type) where
  /-- a `std::pair<T, bool>` is returned, lines 73, 87 and 103 -/
  | returned (value : T) (ok : Bool)
  /-- parks in `WaitForSingleObject(has_data, INFINITE)`, line 80 -/
  | waiting
  deriving DecidableEq, Repr

namespace BufferedChannel

variable {T : Type}

/-- Constructor (lines 12-20): `buffer_size(size > 0 ? size : 1)`, `closed(false)`,
`has_space` created signalled, `has_data` created non-signalled, empty queue.
The `int` chosen by the conditional is positive, so its conversion to `size_t`
keeps the value. -/
def ctor (size : Int) : BufferedChannel T :=
  { queue := []
    buffer_size := if size > 0 then size.toNat else 1
    closed := false
    has_space := true
    has_data := false }

/-- Lines 38-57 of `Send`, entered with the lock held and `closed` already seen
false: the loop test, then either reset-and-wait or push and signal. -/
def SendLoop (c : BufferedChannel T) (value : T) : BufferedChannel T × SendOutcome :=
  if c.queue.length ≥ c.buffer_size then
    -- ResetEvent(has_space); LeaveCriticalSection; WaitForSingleObject
    ({ c with has_space := false }, SendOutcome.waiting)
  else
    -- queue.push(std::move(value))
    let c1 := { c with queue := c.queue ++ [value] }
    -- SetEvent(has_data)
    let c2 := { c1 with has_data := true }
    -- if (queue.size() < buffer_size) SetEvent(has_space)
    let c3 := if c2.queue.length < c2.buffer_size then { c2 with has_space := true } else c2
    (c3, SendOutcome.returned)

/-- First critical section of `Send(value)` (lines 30-57): the `closed` test of
line 33, then the loop. -/
def Send (c : BufferedChannel T) (value : T) : BufferedChannel T × SendOutcome :=
  if c.closed then (c, SendOutcome.threw) else c.SendLoop value

/-- Critical section of `Send(value)` entered after the wait of line 42 has
returned (lines 44-57): the `closed` test of line 45, then the loop test again. -/
def SendWake (c : BufferedChannel T) (value : T) : BufferedChannel T × SendOutcome :=
  if c.closed then (c, SendOutcome.threw) else c.SendLoop value

/-- Lines 85-103 of `Recv`, after the loop: end-of-stream on an empty queue,
otherwise pop the front and signal. -/
def RecvTail [Inhabited T] (c : BufferedChannel T) : BufferedChannel T × RecvOutcome T :=
  match c.queue with
  | [] => (c, RecvOutcome.returned default false)
  | value :: rest =>
    -- T value = std::move(queue.front()); queue.pop()
    let c1 := { c with queue := rest }
    -- SetEvent(has_space)
    let c2 := { c1 with has_space := true }
    -- if (!queue.empty()) SetEvent(has_data); else if (closed) SetEvent(has_data)
    let c3 :=
      if !c2.queue.isEmpty then { c2 with has_data := true }
      else if c2.closed then { c2 with has_data := true }
      else c2
    (c3, RecvOutcome.returned value true)

/-- Lines 76-103 of `Recv`: the loop test, then either reset-and-wait or the tail. -/
def RecvLoop [Inhabited T] (c : BufferedChannel T) : BufferedChannel T × RecvOutcome T :=
  if c.queue.isEmpty && !c.closed then
    -- ResetEvent(has_data); LeaveCriticalSection; WaitForSingleObject
    ({ c with has_data := false }, RecvOutcome.waiting)
  else c.RecvTail

/-- First critical section of `Recv()` (lines 69-103): the early end-of-stream
test of line 71, then the loop. -/
def Recv [Inhabited T] (c : BufferedChannel T) : BufferedChannel T × RecvOutcome T :=
  if c.closed && c.queue.isEmpty then (c, RecvOutcome.returned default false)
  else c.RecvLoop

/-- Critical section of `Recv()` entered after the wait of line 80 has returned
(lines 82-103): control is back at the loop test. -/
def RecvWake [Inhabited T] (c : BufferedChannel T) : BufferedChannel T × RecvOutcome T :=
  c.RecvLoop

/-- Critical section of `Close()` (lines 107-116). -/
def Close (c : BufferedChannel T) : BufferedChannel T :=
  if !c.closed then
    { c with closed := true, has_space := true, has_data := true }
  else c

/-! ## Single-threaded drivers

With one thread only, a call that parks in `WaitForSingleObject` never comes
back: the event it waits on was reset by the caller itself.  The drivers below
therefore yield `none` as soon as a call parks. -/

/-- Calls `Send` once for every value of the list, in order, each call required
to return normally from its first critical section. -/
def sendAll (c : BufferedChannel T) : List T → Option (BufferedChannel T)
  | [] => some c
  | v :: vs =>
    match c.Send v with
    | (c1, SendOutcome.returned) => sendAll c1 vs
    | _ => none

/-- Calls `Recv` the given number of times, each call required to return from
its first critical section, and collects the returned pairs in call order. -/
def recvN [Inhabited T] (c : BufferedChannel T) : Nat → Option (BufferedChannel T × List (T × Bool))
  | 0 => some (c, [])
  | n + 1 =>
    match c.Recv with
    | (c1, RecvOutcome.returned value ok) =>
      match recvN c1 n with
      | some (c2, rs) => some (c2, (value, ok) :: rs)
      | none => none
    | _ => none

end BufferedChannel

/-! ## Threads -/

/-- Program point of a thread with respect to the channel. -/
inductive Pc (T : Type) where
  /-- outside any call -/
  | idle
  /-- inside `Send(v)`, parked at line 42 -/
  | sendWait (v : T)
  /-- inside `Send(v)`, the wait of line 42 has returned, about to take the lock at line 44 -/
  | sendWoken (v : T)
  /-- inside `Recv()`, parked at line 80 -/
  | recvWait
  /-- inside `Recv()`, the wait of line 80 has returned, about to take the lock at line 82 -/
  | recvWoken
  deriving DecidableEq, Repr

/-- A move of one thread. -/
inductive Action (T : Type) where
  /-- an idle thread calls `Send(v)` and runs its first critical section -/
  | send (tid : Nat) (v : T)
  /-- an idle thread calls `Recv()` and runs its first critical section -/
  | recv (tid : Nat)
  /-- an idle thread calls `Close()` -/
  | close (tid : Nat)
  /-- a parked thread finds its event signalled and `WaitForSingleObject` returns -/
  | wake (tid : Nat)
  /-- a woken thread takes the lock again and runs its next critical section -/
  | resume (tid : Nat)
  deriving DecidableEq, Repr

/-- What a move shows to the thread that made it. -/
inductive Obs (T : Type) where
  | sendReturned
  | sendThrew
  | recvReturned (value : T) (ok : Bool)
  | closeReturned
  | parked
  | woke
  deriving DecidableEq, Repr

/-- The channel, the program point of every thread, and two ghost sequences:
`enqueued` grows when line 51 pushes, `delivered` grows when line 103 returns. -/
structure System (T : Type) where
  chan : BufferedChannel T
  pc : Nat → Pc T
  enqueued : List T
  delivered : List T

namespace System

variable {T : Type}

/-- A freshly constructed channel, all threads idle, nothing sent or received. -/
def init (size : Int) : System T :=
  { chan := BufferedChannel.ctor size
    pc := fun _ => Pc.idle
    enqueued := []
    delivered := [] }

/-- Bookkeeping after a critical section of `Send(v)` run by thread `tid`. -/
def afterSend (s : System T) (tid : Nat) (v : T)
    (r : BufferedChannel T × SendOutcome) : System T × Obs T :=
  match r with
  | (c, SendOutcome.returned) =>
    ({ s with chan := c, pc := Function.update s.pc tid Pc.idle,
              enqueued := s.enqueued ++ [v] }, Obs.sendReturned)
  | (c, SendOutcome.threw) =>
    ({ s with chan := c, pc := Function.update s.pc tid Pc.idle }, Obs.sendThrew)
  | (c, SendOutcome.waiting) =>
    ({ s with chan := c, pc := Function.update s.pc tid (Pc.sendWait v) }, Obs.parked)

/-- Bookkeeping after a critical section of `Recv()` run by thread `tid`. -/
def afterRecv (s : System T) (tid : Nat)
    (r : BufferedChannel T × RecvOutcome T) : System T × Obs T :=
  match r with
  | (c, RecvOutcome.returned value true) =>
    ({ s with chan := c, pc := Function.update s.pc tid Pc.idle,
              delivered := s.delivered ++ [value] }, Obs.recvReturned value true)
  | (c, RecvOutcome.returned value false) =>
    ({ s with chan := c, pc := Function.update s.pc tid Pc.idle }, Obs.recvReturned value false)
  | (c, RecvOutcome.waiting) =>
    ({ s with chan := c, pc := Function.update s.pc tid Pc.recvWait }, Obs.parked)

/-- One atomic move.  `none` when the move is not enabled: a call by a thread
that is inside another call, a wake-up while the event is not signalled, a
resume by a thread that has not been woken. -/
def step [Inhabited T] (s : System T) : Action T → Option (System T × Obs T)
  | Action.send tid v =>
    match s.pc tid with
    | Pc.idle => some (s.afterSend tid v (s.chan.Send v))
    | _ => none
  | Action.recv tid =>
    match s.pc tid with
    | Pc.idle => some (s.afterRecv tid s.chan.Recv)
    | _ => none
  | Action.close tid =>
    match s.pc tid with
    | Pc.idle => some ({ s with chan := s.chan.Close }, Obs.closeReturned)
    | _ => none
  | Action.wake tid =>
    match s.pc tid with
    | Pc.sendWait v =>
      if s.chan.has_space then
        some ({ s with pc := Function.update s.pc tid (Pc.sendWoken v) }, Obs.woke)
      else none
    | Pc.recvWait =>
      if s.chan.has_data then
        some ({ s with pc := Function.update s.pc tid Pc.recvWoken }, Obs.woke)
      else none
    | _ => none
  | Action.resume tid =>
    match s.pc tid with
    | Pc.sendWoken v => some (s.afterSend tid v (s.chan.SendWake v))
    | Pc.recvWoken => some (s.afterRecv tid s.chan.RecvWake)
    | _ => none

/-- Runs a list of moves in order; `none` if one of them is not enabled. -/
def exec [Inhabited T] (s : System T) : List (Action T) → Option (System T)
  | [] => some s
  | a :: as =>
    match s.step a with
    | some (s1, _) => exec s1 as
    | none => none

end System

/-- States reachable from `BufferedChannel(size)` by any interleaving of moves. -/
inductive Reachable {T : Type} [Inhabited T] (size : Int) : System T → Prop where
  | init : Reachable size (System.init size)
  | step {s s1 : System T} {a : Action T} {o : Obs T} :
      Reachable size s → s.step a = some (s1, o) → Reachable size s1

/-! ## Concrete runs -/

/-- Capacity 2, four threads: threads 0 and 1 send 1 and 2, thread 2 parks on
`Send(3)`, thread 3 receives 1, thread 2 is woken and completes, thread 0
closes, thread 3 receives twice more. -/
def drainRun : List (Action Nat) :=
  [Action.send 0 1, Action.send 1 2, Action.send 2 3, Action.recv 3, Action.wake 2,
   Action.resume 2, Action.close 0, Action.recv 3, Action.recv 3]

/-- State at the end of `drainRun`. -/
def drainEnd : System Nat :=
  ((System.init 2).exec drainRun).getD (System.init 2)

/-- State after the first two moves of `drainRun`: capacity 2, queue `[1, 2]`. -/
def fullEnd : System Nat :=
  ((System.init 2).exec (drainRun.take 2)).getD (System.init 2)

/-- Capacity 1, four threads: thread 2 parks on `Recv()`, thread 0 sends 1,
thread 1 parks on `Send(2)`, thread 3 receives 1, thread 0 closes. -/
def parkRun : List (Action Nat) :=
  [Action.recv 2, Action.send 0 1, Action.send 1 2, Action.recv 3, Action.close 0]

/-- State at the end of `parkRun`: closed, empty, one sender and one receiver parked. -/
def parkEnd : System Nat :=
  ((System.init 1).exec parkRun).getD (System.init 1)

/-- State after both parked threads of `parkEnd` have been woken. -/
def wokenEnd : System Nat :=
  (parkEnd.exec [Action.wake 1, Action.wake 2]).getD parkEnd

/-! ## Effect of one move on the channel and the ghost sequences -/

/-- The six ways a move can change the channel, `enqueued` and `delivered`. -/
inductive Effect {T : Type} :
    BufferedChannel T → List T → List T → BufferedChannel T → List T → List T → Prop where
  | same (c e d) : Effect c e d c e d
  | sendPark (c e d) : c.closed = false → c.buffer_size ≤ c.queue.length →
      Effect c e d { c with has_space := false } e d
  | push (c e d) (v : T) : c.closed = false → c.queue.length < c.buffer_size →
      Effect c e d
        { c with queue := c.queue ++ [v], has_data := true,
                 has_space := decide (c.queue.length + 1 < c.buffer_size) || c.has_space }
        (e ++ [v]) d
  | recvPark (c e d) : c.closed = false → c.queue = [] →
      Effect c e d { c with has_data := false } e d
  | pop (c e d) (x : T) (xs : List T) : c.queue = x :: xs →
      Effect c e d
        { c with queue := xs, has_space := true,
                 has_data := !xs.isEmpty || c.closed || c.has_data }
        e (d ++ [x])
  | close (c e d) : Effect c e d c.Close e d

end Channel

/-! ## Calls on the critical section

The functions below follow the same control flow as the critical sections
above but record, in program order, the calls the running thread makes on `cs`
and its waits, up to the point where the thread returns, throws out of the
function, or parks. -/

namespace Channel

/-- A call on the critical section `cs`, or a wait on an event. -/
inductive LockEvent where
  /-- a call of `EnterCriticalSection(&cs)` -/
  | enter
  /-- a call of `LeaveCriticalSection(&cs)` -/
  | leave
  /-- a call of `WaitForSingleObject` -/
  | wait
  deriving DecidableEq, Repr

namespace BufferedChannel

variable {T : Type}

/-- Inside the `try` block of `Send`, from the loop test on (lines 38-57): a
full queue gives the `LeaveCriticalSection` of line 40 and the wait of line 42;
otherwise the push and the `SetEvent` calls touch no lock. -/
def SendLoopLock (c : BufferedChannel T) : List LockEvent × SendOutcome :=
  if c.queue.length ≥ c.buffer_size then
    ([LockEvent.leave, LockEvent.wait], SendOutcome.waiting)
  else
    ([], SendOutcome.returned)

/-- Inside the `try` block of `Send`, from a `closed` test on (line 33 on first
entry, line 45 after a wait): a closed channel gives the `LeaveCriticalSection`
of line 34 (line 46) and then the `throw`. -/
def SendTryLock (c : BufferedChannel T) : List LockEvent × SendOutcome :=
  if c.closed then ([LockEvent.leave], SendOutcome.threw) else c.SendLoopLock

/-- How control leaves the `try` block of `Send`: an exception enters the handler
`catch (...)`, whose line 61 calls `LeaveCriticalSection` before rethrowing;
normal completion falls through to the `LeaveCriticalSection` of line 65; a
parked thread is still inside the loop. -/
def SendExitLock : SendOutcome → List LockEvent
  | SendOutcome.threw => [LockEvent.leave]
  | SendOutcome.returned => [LockEvent.leave]
  | SendOutcome.waiting => []

/-- Calls made by the first critical section of `Send`, starting with the
`EnterCriticalSection` of line 30. -/
def SendLock (c : BufferedChannel T) : List LockEvent :=
  [LockEvent.enter] ++ c.SendTryLock.1 ++ SendExitLock c.SendTryLock.2

/-- Calls made by the critical section of `Send` run after a wait, starting
with the `EnterCriticalSection` of line 44. -/
def SendWakeLock (c : BufferedChannel T) : List LockEvent :=
  [LockEvent.enter] ++ c.SendTryLock.1 ++ SendExitLock c.SendTryLock.2

/-- Calls made by `Recv` from the loop test on (lines 76-103): an empty
open queue gives the `LeaveCriticalSection` of line 78 and the wait of line 80;
otherwise one `LeaveCriticalSection`, line 86 or line 102. -/
def RecvLoopLock (c : BufferedChannel T) : List LockEvent :=
  if c.queue.isEmpty && !c.closed then [LockEvent.leave, LockEvent.wait]
  else [LockEvent.leave]

/-- Calls made by the first critical section of `Recv`, starting with the
`EnterCriticalSection` of line 69; the early return releases at line 72. -/
def RecvLock (c : BufferedChannel T) : List LockEvent :=
  [LockEvent.enter] ++ (if c.closed && c.queue.isEmpty then [LockEvent.leave] else c.RecvLoopLock)

/-- Calls made by the critical section of `Recv` run after a wait, starting
with the `EnterCriticalSection` of line 82. -/
def RecvWakeLock (c : BufferedChannel T) : List LockEvent :=
  [LockEvent.enter] ++ c.RecvLoopLock

/-- Calls made by `Close` (lines 107 and 116). -/
def CloseLock (_c : BufferedChannel T) : List LockEvent :=
  [LockEvent.enter, LockEvent.leave]

end BufferedChannel

/-- Number of times the calling thread holds `cs` after the given calls, starting
from `n`.  `none` when the thread calls `LeaveCriticalSection` while holding
nothing, or waits while holding the lock. -/
def lockCount : Nat → List LockEvent → Option Nat
  | n, [] => some n
  | n, LockEvent.enter :: es => lockCount (n + 1) es
  | 0, LockEvent.leave :: _ => none
  | n + 1, LockEvent.leave :: es => lockCount n es
  | 0, LockEvent.wait :: es => lockCount 0 es
  | _ + 1, LockEvent.wait :: _ => none

namespace System

variable {T : Type}

/-- Runs a list of moves in order and collects what each move showed to its
thread; `none` if one of the moves is not enabled. -/
def execObs [Inhabited T] (s : System T) : List (Action T) → Option (System T × List (Obs T))
  | [] => some (s, [])
  | a :: as =>
    match s.step a with
    | some (s1, o) =>
      match execObs s1 as with
      | some (s2, os) => some (s2, o :: os)
      | none => none
    | none => none

end System

/-! ## More concrete runs -/

/-- Capacity 2: thread 0 sends 1 and 2, thread 1 parks on `Send(3)`, thread 2
receives, thread 1 is woken and resumes, thread 0 closes, thread 2 receives
three times. -/
def scenarioRun : List (Action Nat) :=
  [Action.send 0 1, Action.send 0 2, Action.send 1 3, Action.recv 2, Action.wake 1,
   Action.resume 1, Action.close 0, Action.recv 2, Action.recv 2, Action.recv 2]

/-- Channel state and observations after the first `k` moves of `scenarioRun`. -/
def scenarioAt (k : Nat) : Option (BufferedChannel Nat × List (Obs Nat)) :=
  ((System.init 2).execObs (scenarioRun.take k)).map (fun r => (r.1.chan, r.2))

/-- Capacity 1 after one `Send(1)`: the queue is full and the channel open. -/
def filledEnd : System Nat :=
  ((System.init 1).exec [Action.send 0 1]).getD (System.init 1)

/-- Capacity 1 after `Send(1)` and `Recv()`: the queue is empty and the channel open. -/
def emptiedEnd : System Nat :=
  ((System.init 1).exec [Action.send 0 1, Action.recv 0]).getD (System.init 1)

/-- State after the first three moves of `parkRun`: capacity 1, queue `[1]`,
thread 1 parked in `Send(2)`, thread 2 parked in `Recv()`. -/
def blockedEnd : System Nat :=
  ((System.init 1).exec (parkRun.take 3)).getD (System.init 1)

end Channel

/-! ## What each critical section does, case by case -/

namespace Channel
namespace BufferedChannel
variable {T : Type}

theorem Send_of_closed (c : BufferedChannel T) (v : T) (h : c.closed = true) :
    c.Send v = (c, SendOutcome.threw) := by
  simp [Send, h]

theorem Send_of_full (c : BufferedChannel T) (v : T) (h : c.closed = false)
    (hf : c.buffer_size ≤ c.queue.length) :
    c.Send v = ({ c with has_space := false }, SendOutcome.waiting) := by
  simp [Send, SendLoop, h, hf]

theorem Send_of_room (c : BufferedChannel T) (v : T) (h : c.closed = false)
    (hf : c.queue.length < c.buffer_size) :
    c.Send v = ({ c with queue := c.queue ++ [v], has_data := true,
                         has_space := decide (c.queue.length + 1 < c.buffer_size) || c.has_space },
                SendOutcome.returned) := by
  have hn : ¬ c.buffer_size ≤ c.queue.length := Nat.not_le.mpr hf
  by_cases h1 : c.queue.length + 1 < c.buffer_size <;> simp [Send, SendLoop, h, hn, h1]

theorem SendWake_eq_Send (c : BufferedChannel T) (v : T) : c.SendWake v = c.Send v := rfl

theorem Recv_of_nil_closed [Inhabited T] (c : BufferedChannel T) (hq : c.queue = [])
    (h : c.closed = true) : c.Recv = (c, RecvOutcome.returned default false) := by
  simp [Recv, h, hq]

theorem Recv_of_nil_open [Inhabited T] (c : BufferedChannel T) (hq : c.queue = [])
    (h : c.closed = false) : c.Recv = ({ c with has_data := false }, RecvOutcome.waiting) := by
  simp [Recv, RecvLoop, h, hq]

theorem Recv_of_cons [Inhabited T] (c : BufferedChannel T) (x : T) (xs : List T)
    (hq : c.queue = x :: xs) :
    c.Recv = ({ c with queue := xs, has_space := true,
                       has_data := !xs.isEmpty || c.closed || c.has_data },
              RecvOutcome.returned x true) := by
  cases xs <;> cases hc : c.closed <;> simp [Recv, RecvLoop, RecvTail, hq, hc]

theorem RecvWake_eq_Recv [Inhabited T] (c : BufferedChannel T) : c.RecvWake = c.Recv := by
  cases hq : c.queue <;> cases hc : c.closed <;> simp [Recv, RecvWake, RecvLoop, RecvTail, hq, hc]

end BufferedChannel
end Channel

/-! ## Every move has one of the six effects -/

namespace Channel

namespace System

variable {T : Type}

theorem afterSend_effect (s : System T) (tid : Nat) (v : T) :
    Effect s.chan s.enqueued s.delivered
      (s.afterSend tid v (s.chan.Send v)).1.chan
      (s.afterSend tid v (s.chan.Send v)).1.enqueued
      (s.afterSend tid v (s.chan.Send v)).1.delivered := by
  cases hc : s.chan.closed
  · rcases Nat.lt_or_ge s.chan.queue.length s.chan.buffer_size with hf | hf
    · rw [BufferedChannel.Send_of_room _ _ hc hf]
      exact Effect.push _ _ _ v hc hf
    · rw [BufferedChannel.Send_of_full _ _ hc hf]
      exact Effect.sendPark _ _ _ hc hf
  · rw [BufferedChannel.Send_of_closed _ _ hc]
    exact Effect.same _ _ _

theorem afterRecv_effect [Inhabited T] (s : System T) (tid : Nat) :
    Effect s.chan s.enqueued s.delivered
      (s.afterRecv tid s.chan.Recv).1.chan
      (s.afterRecv tid s.chan.Recv).1.enqueued
      (s.afterRecv tid s.chan.Recv).1.delivered := by
  cases hq : s.chan.queue with
  | nil =>
    cases hc : s.chan.closed
    · rw [BufferedChannel.Recv_of_nil_open _ hq hc]
      exact Effect.recvPark _ _ _ hc hq
    · rw [BufferedChannel.Recv_of_nil_closed _ hq hc]
      exact Effect.same _ _ _
  | cons x xs =>
    rw [BufferedChannel.Recv_of_cons _ x xs hq]
    exact Effect.pop _ _ _ x xs hq

theorem step_effect [Inhabited T] {s s1 : System T} {a : Action T} {o : Obs T}
    (h : s.step a = some (s1, o)) :
    Effect s.chan s.enqueued s.delivered s1.chan s1.enqueued s1.delivered := by
  cases a with
  | send tid v =>
    simp only [step] at h
    split at h
    · have e1 : (s.afterSend tid v (s.chan.Send v)).1 = s1 :=
        congrArg Prod.fst (Option.some.inj h)
      rw [← e1]; exact afterSend_effect s tid v
    · cases h
  | recv tid =>
    simp only [step] at h
    split at h
    · have e1 : (s.afterRecv tid s.chan.Recv).1 = s1 :=
        congrArg Prod.fst (Option.some.inj h)
      rw [← e1]; exact afterRecv_effect s tid
    · cases h
  | close tid =>
    simp only [step] at h
    split at h
    · cases h; exact Effect.close _ _ _
    · cases h
  | wake tid =>
    simp only [step] at h
    split at h
    · split at h
      · cases h; exact Effect.same _ _ _
      · cases h
    · split at h
      · cases h; exact Effect.same _ _ _
      · cases h
    · cases h
  | resume tid =>
    simp only [step] at h
    split at h
    · rename_i v _
      have e1 : (s.afterSend tid v (s.chan.Send v)).1 = s1 :=
        congrArg Prod.fst (Option.some.inj h)
      rw [← e1]; exact afterSend_effect s tid v
    · have e1 : (s.afterRecv tid s.chan.RecvWake).1 = s1 :=
        congrArg Prod.fst (Option.some.inj h)
      rw [← e1, BufferedChannel.RecvWake_eq_Recv]; exact afterRecv_effect s tid
    · cases h

end System
end Channel

/-! ## What the six effects preserve -/

namespace Channel

variable {T : Type}

theorem Effect.fifo {c c1 : BufferedChannel T} {e d e1 d1 : List T}
    (h : Effect c e d c1 e1 d1) (hi : e = d ++ c.queue) : e1 = d1 ++ c1.queue := by
  cases h with
  | same => exact hi
  | sendPark _ _ => exact hi
  | push v _ _ => simp [hi]
  | recvPark _ _ => exact hi
  | pop x xs hq => simp [hi, hq]
  | close =>
    have : c.Close.queue = c.queue := by unfold BufferedChannel.Close; split <;> rfl
    rw [this]; exact hi

theorem Effect.buffer_size_eq {c c1 : BufferedChannel T} {e d e1 d1 : List T}
    (h : Effect c e d c1 e1 d1) : c1.buffer_size = c.buffer_size := by
  cases h with
  | same => rfl
  | sendPark _ _ => rfl
  | push v _ _ => rfl
  | recvPark _ _ => rfl
  | pop x xs hq => rfl
  | close => unfold BufferedChannel.Close; split <;> rfl

theorem Effect.preserves_length_le {c c1 : BufferedChannel T} {e d e1 d1 : List T}
    (h : Effect c e d c1 e1 d1) (hi : c.queue.length ≤ c.buffer_size) :
    c1.queue.length ≤ c1.buffer_size := by
  cases h with
  | same => exact hi
  | sendPark _ _ => exact hi
  | push v _ hf => simpa using hf
  | recvPark _ _ => exact hi
  | pop x xs hq =>
    rw [hq] at hi
    simp only [List.length_cons] at hi
    exact Nat.le_of_succ_le hi
  | close =>
    have h1 : c.Close.queue = c.queue := by unfold BufferedChannel.Close; split <;> rfl
    have h2 : c.Close.buffer_size = c.buffer_size := by unfold BufferedChannel.Close; split <;> rfl
    rw [h1, h2]; exact hi

theorem Effect.closed_mono {c c1 : BufferedChannel T} {e d e1 d1 : List T}
    (h : Effect c e d c1 e1 d1) (hc : c.closed = true) : c1.closed = true := by
  cases h with
  | same => exact hc
  | sendPark _ _ => exact hc
  | push v _ _ => exact hc
  | recvPark _ _ => exact hc
  | pop x xs hq => exact hc
  | close => simp [BufferedChannel.Close, hc]

/-- On a closed channel no effect resets an event. -/
theorem Effect.closed_keeps_events {c c1 : BufferedChannel T} {e d e1 d1 : List T}
    (h : Effect c e d c1 e1 d1) (hc : c.closed = true) :
    (c.has_space = true → c1.has_space = true) ∧ (c.has_data = true → c1.has_data = true) := by
  cases h with
  | same => exact ⟨id, id⟩
  | sendPark ho _ => rw [hc] at ho; cases ho
  | push v ho _ => rw [hc] at ho; cases ho
  | recvPark ho _ => rw [hc] at ho; cases ho
  | pop x xs hq => simp [hc]
  | close => simp [BufferedChannel.Close, hc]

/-- Whenever `closed` holds after an effect, both events are signalled, provided
the same was true before. -/
theorem Effect.preserves_closed_events {c c1 : BufferedChannel T} {e d e1 d1 : List T}
    (h : Effect c e d c1 e1 d1)
    (hi : c.closed = true → c.has_space = true ∧ c.has_data = true)
    (hc : c1.closed = true) : c1.has_space = true ∧ c1.has_data = true := by
  cases h with
  | same => exact hi hc
  | sendPark ho _ => have : c.closed = true := hc; rw [this] at ho; cases ho
  | push v ho _ => have : c.closed = true := hc; rw [this] at ho; cases ho
  | recvPark ho _ => have : c.closed = true := hc; rw [this] at ho; cases ho
  | pop x xs hq =>
    have h0 : c.closed = true := hc
    simp [h0]
  | close =>
    cases h0 : c.closed
    · simp [BufferedChannel.Close, h0]
    · have h1 : c.Close = c := by simp [BufferedChannel.Close, h0]
      rw [h1]; exact hi h0

namespace System

theorem exec_cons [Inhabited T] {s s2 : System T} {a : Action T} {as : List (Action T)}
    (h : s.exec (a :: as) = some s2) :
    ∃ s1 o, s.step a = some (s1, o) ∧ s1.exec as = some s2 := by
  simp only [exec] at h
  split at h
  · rename_i s1 o hs
    exact ⟨s1, o, hs, h⟩
  · cases h

end System

theorem Reachable.of_exec [Inhabited T] {size : Int} {s s2 : System T} (as : List (Action T))
    (hr : Reachable size s) (h : s.exec as = some s2) : Reachable size s2 := by
  induction as generalizing s with
  | nil =>
    simp only [System.exec, Option.some.injEq] at h
    rw [← h]; exact hr
  | cons a as ih =>
    obtain ⟨s1, o, hs, he⟩ := System.exec_cons h
    exact ih (Reachable.step hr hs) he

end Channel

/-! ## Single-threaded runs -/

namespace Channel
namespace BufferedChannel

variable {T : Type}

theorem sendAll_of_room (vs : List T) (c : BufferedChannel T) (hc : c.closed = false)
    (hn : c.queue.length + vs.length ≤ c.buffer_size) :
    ∃ d, c.sendAll vs = some d ∧ d.queue = c.queue ++ vs ∧ d.closed = false ∧
      d.buffer_size = c.buffer_size := by
  induction vs generalizing c with
  | nil => exact ⟨c, rfl, by simp, hc, rfl⟩
  | cons v vs ih =>
    simp only [List.length_cons] at hn
    have hf : c.queue.length < c.buffer_size := by omega
    have hs := Send_of_room c v hc hf
    have hn1 : (c.Send v).1.queue.length + vs.length ≤ (c.Send v).1.buffer_size := by
      rw [hs]; simp only [List.length_append, List.length_singleton]; omega
    have hc1 : (c.Send v).1.closed = false := by rw [hs]; exact hc
    obtain ⟨d, hd, hq, hcl, hb⟩ := ih (c.Send v).1 hc1 hn1
    refine ⟨d, ?_, ?_, hcl, ?_⟩
    · have h2 : (c.Send v).2 = SendOutcome.returned := by rw [hs]
      have h3 : c.Send v = ((c.Send v).1, SendOutcome.returned) := by rw [← h2]
      rw [sendAll, h3]; exact hd
    · rw [hq, hs]; simp
    · rw [hb, hs]

theorem recvN_drain [Inhabited T] (q : List T) (c : BufferedChannel T) (hq : c.queue = q) :
    ∃ d, c.recvN q.length = some (d, q.map (fun v => (v, true))) ∧ d.queue = [] ∧
      d.closed = c.closed ∧ d.buffer_size = c.buffer_size := by
  induction q generalizing c with
  | nil => exact ⟨c, rfl, hq, rfl, rfl⟩
  | cons x xs ih =>
    have hr := Recv_of_cons c x xs hq
    have hq1 : c.Recv.1.queue = xs := by rw [hr]
    obtain ⟨d, hd, hdq, hdc, hdb⟩ := ih c.Recv.1 hq1
    refine ⟨d, ?_, hdq, ?_, ?_⟩
    · have h3 : c.Recv = (c.Recv.1, RecvOutcome.returned x true) := by rw [hr]
      rw [List.length_cons, recvN, h3]
      simp only [hd, List.map_cons]
    · rw [hdc, hr]
    · rw [hdb, hr]

theorem recvN_end [Inhabited T] (m : Nat) (c : BufferedChannel T) (hq : c.queue = [])
    (hc : c.closed = true) :
    c.recvN m = some (c, List.replicate m (default, false)) := by
  induction m with
  | zero => rfl
  | succ m ih =>
    rw [recvN, Recv_of_nil_closed c hq hc]
    simp only [ih, List.replicate_succ]

theorem Close_queue (c : BufferedChannel T) : c.Close.queue = c.queue := by
  unfold Close; split <;> rfl

theorem Close_buffer_size (c : BufferedChannel T) : c.Close.buffer_size = c.buffer_size := by
  unfold Close; split <;> rfl

theorem Close_closed (c : BufferedChannel T) : c.Close.closed = true := by
  cases h : c.closed <;> simp [Close, h]

end BufferedChannel
end Channel

/-! ## Invariants of reachable states -/

namespace Channel

variable {T : Type}

theorem BufferedChannel.ctor_buffer_size_pos (size : Int) :
    1 ≤ (BufferedChannel.ctor size : BufferedChannel T).buffer_size := by
  unfold BufferedChannel.ctor
  by_cases h : size > 0
  · simp only [h, if_true]; omega
  · simp only [h, if_false]; exact Nat.le_refl 1

theorem System.exec_frame [Inhabited T] (as : List (Action T)) {s s2 : System T}
    (h : s.exec as = some s2) :
    (s.chan.closed = true → s2.chan.closed = true) ∧
    s2.chan.buffer_size = s.chan.buffer_size := by
  induction as generalizing s with
  | nil =>
    simp only [System.exec, Option.some.injEq] at h
    rw [← h]; exact ⟨id, rfl⟩
  | cons a as ih =>
    obtain ⟨s1, o, hs, he⟩ := System.exec_cons h
    have h1 := ih he
    have hf := System.step_effect hs
    exact ⟨fun hc => h1.1 (hf.closed_mono hc), h1.2.trans hf.buffer_size_eq⟩

theorem Reachable.length_le [Inhabited T] {size : Int} {s : System T}
    (hr : Reachable size s) :
    s.chan.queue.length ≤ s.chan.buffer_size ∧ 1 ≤ s.chan.buffer_size := by
  induction hr with
  | init => exact ⟨Nat.zero_le _, BufferedChannel.ctor_buffer_size_pos size⟩
  | step _ hs ih =>
    have hf := System.step_effect hs
    exact ⟨hf.preserves_length_le ih.1, by rw [hf.buffer_size_eq]; exact ih.2⟩

theorem Reachable.closed_events [Inhabited T] {size : Int} {s : System T}
    (hr : Reachable size s) (hc : s.chan.closed = true) :
    s.chan.has_space = true ∧ s.chan.has_data = true := by
  induction hr with
  | init => cases hc
  | step _ hs ih => exact (System.step_effect hs).preserves_closed_events ih hc

end Channel

/-! ## A reset event means the condition is unmet -/

namespace Channel

variable {T : Type}

/-- An effect keeps: `has_space` reset only on a full open channel, `has_data`
reset only on an empty open channel. -/
theorem Effect.preserves_reset_meaning {c c1 : BufferedChannel T} {e d e1 d1 : List T}
    (h : Effect c e d c1 e1 d1)
    (hi : (c.has_space = false → c.buffer_size ≤ c.queue.length ∧ c.closed = false) ∧
          (c.has_data = false → c.queue = [] ∧ c.closed = false)) :
    (c1.has_space = false → c1.buffer_size ≤ c1.queue.length ∧ c1.closed = false) ∧
    (c1.has_data = false → c1.queue = [] ∧ c1.closed = false) := by
  cases h with
  | same => exact hi
  | sendPark ho hf => exact ⟨fun _ => ⟨hf, ho⟩, hi.2⟩
  | push v ho hf =>
    refine ⟨fun hs => ?_, fun hd => (by cases hd)⟩
    simp only [Bool.or_eq_false_iff, decide_eq_false_iff_not] at hs
    refine ⟨?_, ho⟩
    simp only [List.length_append, List.length_singleton]
    omega
  | recvPark ho hq => exact ⟨hi.1, fun _ => ⟨hq, ho⟩⟩
  | pop x xs hq =>
    refine ⟨fun hs => (by cases hs), fun hd => ?_⟩
    simp only [Bool.or_eq_false_iff, Bool.not_eq_false', List.isEmpty_iff] at hd
    exact ⟨hd.1.1, hd.1.2⟩
  | close =>
    cases h0 : c.closed
    · have h1 : c.Close = { c with closed := true, has_space := true, has_data := true } := by
        simp [BufferedChannel.Close, h0]
      rw [h1]
      exact ⟨fun hs => (by cases hs), fun hd => (by cases hd)⟩
    · have h1 : c.Close = c := by simp [BufferedChannel.Close, h0]
      rw [h1]; exact hi

theorem Reachable.reset_meaning [Inhabited T] {size : Int} {s : System T}
    (hr : Reachable size s) :
    (s.chan.has_space = false → s.chan.buffer_size ≤ s.chan.queue.length ∧ s.chan.closed = false) ∧
    (s.chan.has_data = false → s.chan.queue = [] ∧ s.chan.closed = false) := by
  induction hr with
  | init =>
    refine ⟨fun hs => (by cases hs), fun _ => ⟨rfl, rfl⟩⟩
  | step _ hs ih => exact (System.step_effect hs).preserves_reset_meaning ih

end Channel

/-! ## Theorems about the channel -/

namespace Channel

theorem drainEnd_reachable : Reachable 2 drainEnd :=
  Reachable.of_exec drainRun Reachable.init rfl

theorem fullEnd_reachable : Reachable 2 fullEnd :=
  Reachable.of_exec (drainRun.take 2) Reachable.init rfl

theorem parkEnd_reachable : Reachable 1 parkEnd :=
  Reachable.of_exec parkRun Reachable.init rfl

theorem wokenEnd_reachable : Reachable 1 wokenEnd :=
  Reachable.of_exec [Action.wake 1, Action.wake 2] parkEnd_reachable rfl

/-- C1. Global FIFO, no loss, no duplication: in every state reachable from a
freshly constructed channel, under every interleaving of the atomic moves of
any number of threads, `enqueued = delivered ++ queue`; and when the channel is
closed and the queue is empty, `delivered` equals `enqueued` exactly. -/
theorem enqueued_eq_delivered_append_queue {T : Type} [Inhabited T] (size : Int)
    (s : System T) (hr : Reachable size s) :
    s.enqueued = s.delivered ++ s.chan.queue ∧
    (s.chan.closed = true → s.chan.queue = [] → s.delivered = s.enqueued) := by
  have key : s.enqueued = s.delivered ++ s.chan.queue := by
    induction hr with
    | init => rfl
    | step _ hs ih => exact (System.step_effect hs).fifo ih
  refine ⟨key, fun _ hq => ?_⟩
  rw [key, hq, List.append_nil]

/-- Witness for C1 on `drainRun`: three values were pushed, the run ends closed
and drained, and the three values were delivered in the order pushed. -/
theorem enqueued_eq_delivered_append_queue_witness :
    Reachable 2 drainEnd ∧ drainEnd.chan.closed = true ∧ drainEnd.chan.queue = [] ∧
    drainEnd.enqueued = [1, 2, 3] ∧ drainEnd.delivered = drainEnd.enqueued :=
  ⟨drainEnd_reachable, rfl, rfl, rfl,
   (enqueued_eq_delivered_append_queue 2 drainEnd drainEnd_reachable).2 rfl rfl⟩

end Channel

namespace Channel

open BufferedChannel

/-- C2. Sequential FIFO: on a channel constructed with capacity `c ≥ 1`, sending
a list of at most `c` values succeeds call by call without parking and leaves
the queue equal to the list; that many `Recv` calls then return the values in
the same order, each flagged true, and leave the queue empty. -/
theorem sequential_fifo {T : Type} [Inhabited T] (c : Int) (vs : List T)
    (hc : 1 ≤ c) (hn : (vs.length : Int) ≤ c) :
    ∃ d e : BufferedChannel T,
      (BufferedChannel.ctor c).sendAll vs = some d ∧ d.queue = vs ∧
      d.recvN vs.length = some (e, vs.map (fun v => (v, true))) ∧ e.queue = [] := by
  have hb : (BufferedChannel.ctor c : BufferedChannel T).buffer_size = c.toNat := by
    have : c > 0 := by omega
    simp [BufferedChannel.ctor, this]
  have hroom : (BufferedChannel.ctor c : BufferedChannel T).queue.length + vs.length ≤
      (BufferedChannel.ctor c : BufferedChannel T).buffer_size := by
    rw [hb]
    have : (BufferedChannel.ctor c : BufferedChannel T).queue = [] := rfl
    rw [this]
    simp only [List.length_nil, Nat.zero_add]
    omega
  obtain ⟨d, hd, hq, _, _⟩ := sendAll_of_room vs (BufferedChannel.ctor c) rfl hroom
  have hq1 : d.queue = vs := by rw [hq]; rfl
  obtain ⟨e, he, heq, _, _⟩ := recvN_drain vs d hq1
  exact ⟨d, e, hd, hq1, he, heq⟩

/-- Witness for C2: capacity 3, values 7, 8, 9. -/
theorem sequential_fifo_witness :
    ∃ d e : BufferedChannel Nat,
      (BufferedChannel.ctor 3).sendAll [7, 8, 9] = some d ∧ d.queue = [7, 8, 9] ∧
      d.recvN 3 = some (e, [(7, true), (8, true), (9, true)]) ∧ e.queue = [] :=
  sequential_fifo 3 [7, 8, 9] (by decide) (by decide)

/-- C3. Result of `Recv`, for its first critical section and for the one run
after a wait: on a non-empty queue it returns the head flagged true and the
new queue is the old one without its head; it returns a false flag exactly
when the queue is empty and the channel closed, and then the value is the
default one and the whole state is unchanged. -/
theorem recv_result {T : Type} [Inhabited T] (c : BufferedChannel T) :
    (∀ x xs, c.queue = x :: xs →
      c.Recv.2 = RecvOutcome.returned x true ∧ c.Recv.1.queue = xs ∧
      c.RecvWake.2 = RecvOutcome.returned x true ∧ c.RecvWake.1.queue = xs) ∧
    ((∃ v, c.Recv.2 = RecvOutcome.returned v false) ↔ (c.queue = [] ∧ c.closed = true)) ∧
    ((∃ v, c.RecvWake.2 = RecvOutcome.returned v false) ↔ (c.queue = [] ∧ c.closed = true)) ∧
    (c.queue = [] → c.closed = true →
      c.Recv = (c, RecvOutcome.returned default false) ∧
      c.RecvWake = (c, RecvOutcome.returned default false)) := by
  have hiff : (∃ v, c.Recv.2 = RecvOutcome.returned v false) ↔
      (c.queue = [] ∧ c.closed = true) := by
    constructor
    · rintro ⟨v, hv⟩
      cases hq : c.queue with
      | nil =>
        cases hc : c.closed
        · rw [Recv_of_nil_open c hq hc] at hv; cases hv
        · exact ⟨rfl, rfl⟩
      | cons x xs => rw [Recv_of_cons c x xs hq] at hv; cases hv
    · rintro ⟨hq, hc⟩
      exact ⟨default, by rw [Recv_of_nil_closed c hq hc]⟩
  refine ⟨?_, hiff, ?_, ?_⟩
  · intro x xs hq
    rw [RecvWake_eq_Recv, Recv_of_cons c x xs hq]
    exact ⟨rfl, rfl, rfl, rfl⟩
  · rw [RecvWake_eq_Recv]; exact hiff
  · intro hq hc
    rw [RecvWake_eq_Recv, Recv_of_nil_closed c hq hc]
    exact ⟨rfl, rfl⟩

/-- Witness for C3: a closed channel holding 4 and 5 still hands out 4, and a
closed empty channel reports end-of-stream and stays as it is. -/
theorem recv_result_witness :
    (BufferedChannel.Recv (⟨[4, 5], 2, true, true, true⟩ : BufferedChannel Nat)).2 =
        RecvOutcome.returned 4 true ∧
    (BufferedChannel.Recv (⟨[4, 5], 2, true, true, true⟩ : BufferedChannel Nat)).1.queue = [5] ∧
    BufferedChannel.Recv (⟨[], 2, true, true, true⟩ : BufferedChannel Nat) =
        (⟨[], 2, true, true, true⟩, RecvOutcome.returned 0 false) :=
  ⟨((recv_result ⟨[4, 5], 2, true, true, true⟩).1 4 [5] rfl).1,
   ((recv_result ⟨[4, 5], 2, true, true, true⟩).1 4 [5] rfl).2.1,
   ((recv_result ⟨[], 2, true, true, true⟩).2.2.2 rfl rfl).1⟩

/-- C4. `Send` on a closed channel throws without parking, both in its first
critical section and in the one run after a wait, and leaves the whole state
(queue, capacity, closed flag, both events) as it was, whether or not the
queue has room. -/
theorem send_closed_throws {T : Type} (c : BufferedChannel T) (v : T)
    (hc : c.closed = true) :
    c.Send v = (c, SendOutcome.threw) ∧ c.SendWake v = (c, SendOutcome.threw) :=
  ⟨Send_of_closed c v hc, Send_of_closed c v hc⟩

/-- Witness for C4: a closed channel of capacity 2 holding one value. -/
theorem send_closed_throws_witness :
    BufferedChannel.Send (⟨[4], 2, true, true, true⟩ : BufferedChannel Nat) 9 =
        (⟨[4], 2, true, true, true⟩, SendOutcome.threw) ∧
    BufferedChannel.SendWake (⟨[4], 2, true, true, true⟩ : BufferedChannel Nat) 9 =
        (⟨[4], 2, true, true, true⟩, SendOutcome.threw) :=
  send_closed_throws ⟨[4], 2, true, true, true⟩ 9 rfl

/-- C5. Drain-then-end: after `Close` on a channel whose queue holds `k` values,
the next `k` calls of `Recv` return those values in order, each flagged true,
without parking; the state then reached has an empty queue, and from it any
number of further `Recv` calls each return the default value flagged false and
leave the state unchanged. -/
theorem drain_then_end {T : Type} [Inhabited T] (c : BufferedChannel T) :
    ∃ d : BufferedChannel T,
      c.Close.recvN c.queue.length = some (d, c.queue.map (fun v => (v, true))) ∧
      d.queue = [] ∧ d.closed = true ∧
      d.Recv = (d, RecvOutcome.returned default false) ∧
      ∀ m, d.recvN m = some (d, List.replicate m (default, false)) := by
  obtain ⟨d, hd, hq, hc, _⟩ := recvN_drain c.queue c.Close (Close_queue c)
  rw [Close_closed] at hc
  exact ⟨d, hd, hq, hc, Recv_of_nil_closed d hq hc, fun m => recvN_end m d hq hc⟩

/-- C6. `Close` is idempotent on the whole state: closing twice equals closing
once, and so does closing any positive number of times. -/
theorem close_idempotent {T : Type} (c : BufferedChannel T) :
    c.Close.Close = c.Close ∧ ∀ n : Nat, BufferedChannel.Close^[n + 1] c = c.Close := by
  have h2 : ∀ b : BufferedChannel T, b.Close.Close = b.Close := by
    intro b
    cases h : b.closed <;> simp [BufferedChannel.Close, h]
  refine ⟨h2 c, fun n => ?_⟩
  induction n with
  | zero => rfl
  | succ n ih =>
    rw [Function.iterate_succ_apply', ih, h2]

end Channel

namespace Channel

open BufferedChannel

/-- C7. Close leaves no waiter parked: in every reachable state with `closed`
set, both events are signalled and stay signalled (with `closed` still set)
after any further moves; so every parked thread can be woken, a woken sender
throws without enqueuing, and a woken receiver that finds the queue empty
returns end-of-stream. -/
theorem closed_leaves_no_waiter_parked {T : Type} [Inhabited T] (size : Int)
    (s : System T) (hr : Reachable size s) (hc : s.chan.closed = true) :
    (s.chan.has_space = true ∧ s.chan.has_data = true) ∧
    (∀ as s1, s.exec as = some s1 →
      s1.chan.closed = true ∧ s1.chan.has_space = true ∧ s1.chan.has_data = true) ∧
    (∀ tid v, s.pc tid = Pc.sendWait v →
      ∃ s1, s.step (Action.wake tid) = some (s1, Obs.woke) ∧ s1.pc tid = Pc.sendWoken v) ∧
    (∀ tid, s.pc tid = Pc.recvWait →
      ∃ s1, s.step (Action.wake tid) = some (s1, Obs.woke) ∧ s1.pc tid = Pc.recvWoken) ∧
    (∀ tid v, s.pc tid = Pc.sendWoken v →
      ∃ s1, s.step (Action.resume tid) = some (s1, Obs.sendThrew) ∧
        s1.chan = s.chan ∧ s1.enqueued = s.enqueued ∧ s1.pc tid = Pc.idle) ∧
    (∀ tid, s.pc tid = Pc.recvWoken → s.chan.queue = [] →
      ∃ s1, s.step (Action.resume tid) = some (s1, Obs.recvReturned default false) ∧
        s1.chan = s.chan ∧ s1.delivered = s.delivered ∧ s1.pc tid = Pc.idle) := by
  have hev := hr.closed_events hc
  refine ⟨hev, ?_, ?_, ?_, ?_, ?_⟩
  · intro as s1 he
    have hc1 := (System.exec_frame as he).1 hc
    exact ⟨hc1, (hr.of_exec as he).closed_events hc1⟩
  · intro tid v hp
    refine ⟨{ s with pc := Function.update s.pc tid (Pc.sendWoken v) }, ?_, ?_⟩
    · simp only [System.step, hp, hev.1, if_true]
    · simp
  · intro tid hp
    refine ⟨{ s with pc := Function.update s.pc tid Pc.recvWoken }, ?_, ?_⟩
    · simp only [System.step, hp, hev.2, if_true]
    · simp
  · intro tid v hp
    refine ⟨{ s with pc := Function.update s.pc tid Pc.idle }, ?_, rfl, rfl, ?_⟩
    · simp only [System.step, hp, SendWake_eq_Send, Send_of_closed s.chan v hc,
        System.afterSend]
    · simp
  · intro tid hp hq
    refine ⟨{ s with pc := Function.update s.pc tid Pc.idle }, ?_, rfl, rfl, ?_⟩
    · simp only [System.step, hp, RecvWake_eq_Recv, Recv_of_nil_closed s.chan hq hc,
        System.afterRecv]
    · simp

/-- Witness for C7 on `parkRun`: the run ends closed with thread 1 parked in
`Send(2)` and thread 2 parked in `Recv()`; both events are signalled, thread 1
can be woken, and once woken (`wokenEnd`) its resumed `Send` throws. -/
theorem closed_leaves_no_waiter_parked_witness :
    Reachable 1 parkEnd ∧ parkEnd.chan.closed = true ∧
    (parkEnd.chan.has_space = true ∧ parkEnd.chan.has_data = true) ∧
    (∃ s1, parkEnd.step (Action.wake 1) = some (s1, Obs.woke) ∧ s1.pc 1 = Pc.sendWoken 2) ∧
    (∃ s1, wokenEnd.step (Action.resume 1) = some (s1, Obs.sendThrew) ∧
      s1.chan = wokenEnd.chan ∧ s1.enqueued = wokenEnd.enqueued ∧ s1.pc 1 = Pc.idle) ∧
    (∃ s1, wokenEnd.step (Action.resume 2) = some (s1, Obs.recvReturned 0 false) ∧
      s1.chan = wokenEnd.chan ∧ s1.delivered = wokenEnd.delivered ∧ s1.pc 2 = Pc.idle) :=
  ⟨parkEnd_reachable, rfl,
   (closed_leaves_no_waiter_parked 1 parkEnd parkEnd_reachable rfl).1,
   (closed_leaves_no_waiter_parked 1 parkEnd parkEnd_reachable rfl).2.2.1 1 2 rfl,
   (closed_leaves_no_waiter_parked 1 wokenEnd wokenEnd_reachable rfl).2.2.2.2.1 1 2 rfl,
   (closed_leaves_no_waiter_parked 1 wokenEnd wokenEnd_reachable rfl).2.2.2.2.2 2 rfl rfl⟩

/-- C8. Capacity bound: in every reachable state the queue is no longer than
the capacity and the capacity is at least 1; and on a queue whose length has
reached the capacity neither critical section of `Send` pushes or returns. -/
theorem capacity_bound {T : Type} [Inhabited T] (size : Int) (s : System T)
    (hr : Reachable size s) :
    s.chan.queue.length ≤ s.chan.buffer_size ∧ 1 ≤ s.chan.buffer_size ∧
    ∀ v, s.chan.queue.length = s.chan.buffer_size →
      (s.chan.Send v).1.queue = s.chan.queue ∧ (s.chan.Send v).2 ≠ SendOutcome.returned ∧
      (s.chan.SendWake v).1.queue = s.chan.queue ∧
      (s.chan.SendWake v).2 ≠ SendOutcome.returned := by
  refine ⟨hr.length_le.1, hr.length_le.2, fun v hfull => ?_⟩
  rw [SendWake_eq_Send]
  cases hc : s.chan.closed
  · rw [Send_of_full s.chan v hc (Nat.le_of_eq hfull.symm)]
    exact ⟨rfl, by simp, rfl, by simp⟩
  · rw [Send_of_closed s.chan v hc]
    exact ⟨rfl, by simp, rfl, by simp⟩

/-- Witness for C8 on `fullEnd`: capacity 2 with queue `[1, 2]`; the bound holds
with equality and `Send(3)` parks, resetting `has_space`, without pushing. -/
theorem capacity_bound_witness :
    Reachable 2 fullEnd ∧ fullEnd.chan.queue = [1, 2] ∧ fullEnd.chan.buffer_size = 2 ∧
    fullEnd.chan.queue.length ≤ fullEnd.chan.buffer_size ∧
    (fullEnd.chan.Send 3).1.queue = fullEnd.chan.queue ∧
    fullEnd.chan.Send 3 = (⟨[1, 2], 2, false, false, true⟩, SendOutcome.waiting) :=
  ⟨fullEnd_reachable, rfl, rfl, (capacity_bound 2 fullEnd fullEnd_reachable).1,
   ((capacity_bound 2 fullEnd fullEnd_reachable).2.2 3 rfl).1, rfl⟩

/-- C9. Construction: for every integer `n`, the constructor yields capacity
`n` when `n > 0` and 1 otherwise, an empty queue, `closed` false, `has_space`
signalled and `has_data` not signalled. -/
theorem ctor_state {T : Type} (n : Int) :
    ((BufferedChannel.ctor n : BufferedChannel T).buffer_size : Int) = (if n > 0 then n else 1) ∧
    (BufferedChannel.ctor n : BufferedChannel T).queue = [] ∧
    (BufferedChannel.ctor n : BufferedChannel T).closed = false ∧
    (BufferedChannel.ctor n : BufferedChannel T).has_space = true ∧
    (BufferedChannel.ctor n : BufferedChannel T).has_data = false := by
  refine ⟨?_, rfl, rfl, rfl, rfl⟩
  unfold BufferedChannel.ctor
  by_cases h : n > 0
  · simp only [h, if_true]; omega
  · simp only [h, if_false]; rfl

/-- C10. `closed` is monotonic and the capacity is fixed: no move turns `closed`
from true to false or changes `buffer_size`, and the same holds along any
sequence of moves. -/
theorem closed_monotone_capacity_fixed {T : Type} [Inhabited T] (s : System T) :
    (∀ a s1 o, s.step a = some (s1, o) →
      (s.chan.closed = true → s1.chan.closed = true) ∧
      s1.chan.buffer_size = s.chan.buffer_size) ∧
    (∀ as s2, s.exec as = some s2 →
      (s.chan.closed = true → s2.chan.closed = true) ∧
      s2.chan.buffer_size = s.chan.buffer_size) :=
  ⟨fun _ _ _ hs => ⟨(System.step_effect hs).closed_mono, (System.step_effect hs).buffer_size_eq⟩,
   fun as _ he => System.exec_frame as he⟩

end Channel

namespace Channel

open BufferedChannel

theorem blockedEnd_reachable : Reachable 1 blockedEnd :=
  Reachable.of_exec (parkRun.take 3) Reachable.init rfl

theorem filledEnd_reachable : Reachable 1 filledEnd :=
  Reachable.of_exec [Action.send 0 1] Reachable.init rfl

theorem emptiedEnd_reachable : Reachable 1 emptiedEnd :=
  Reachable.of_exec [Action.send 0 1, Action.recv 0] Reachable.init rfl

/-- C11. Frame of `Close`: it has no wait, so the move of an idle thread is
always enabled and returns; afterwards `closed` is set, and the queue (values
and order) and the capacity are exactly as before. -/
theorem close_frame {T : Type} [Inhabited T] (s : System T) (tid : Nat)
    (hp : s.pc tid = Pc.idle) :
    s.chan.Close.closed = true ∧ s.chan.Close.queue = s.chan.queue ∧
    s.chan.Close.buffer_size = s.chan.buffer_size ∧
    ∃ s1, s.step (Action.close tid) = some (s1, Obs.closeReturned) ∧
      s1.chan = s.chan.Close ∧ s1.pc = s.pc ∧
      s1.enqueued = s.enqueued ∧ s1.delivered = s.delivered := by
  refine ⟨Close_closed _, Close_queue _, Close_buffer_size _,
    { s with chan := s.chan.Close }, ?_, rfl, rfl, rfl, rfl⟩
  simp only [System.step, hp]

/-- Witness for C11 on `fullEnd` (capacity 2, queue `[1, 2]`, open): thread 0
closes, the queue and the capacity stay. -/
theorem close_frame_witness :
    fullEnd.chan.Close = ⟨[1, 2], 2, true, true, true⟩ ∧
    fullEnd.chan.Close.queue = fullEnd.chan.queue ∧
    ∃ s1, fullEnd.step (Action.close 0) = some (s1, Obs.closeReturned) ∧
      s1.chan = fullEnd.chan.Close ∧ s1.pc = fullEnd.pc ∧
      s1.enqueued = fullEnd.enqueued ∧ s1.delivered = fullEnd.delivered :=
  ⟨rfl, (close_frame fullEnd 0 rfl).2.1, (close_frame fullEnd 0 rfl).2.2.2⟩

/-- C12. Blocking exactly when required: in a reachable state, either critical
section of `Send` parks exactly when the queue length equals the capacity and
the channel is open, and either critical section of `Recv` parks exactly when
the queue is empty and the channel is open; in every other case the section
completes.  Nothing parks on a closed channel, and a woken thread whose
condition is still unmet only resets its own event and parks again. -/
theorem waits_exactly_when_required {T : Type} [Inhabited T] (size : Int)
    (s : System T) (hr : Reachable size s) (v : T) :
    ((s.chan.Send v).2 = SendOutcome.waiting ↔
      (s.chan.queue.length = s.chan.buffer_size ∧ s.chan.closed = false)) ∧
    ((s.chan.SendWake v).2 = SendOutcome.waiting ↔
      (s.chan.queue.length = s.chan.buffer_size ∧ s.chan.closed = false)) ∧
    (s.chan.Recv.2 = RecvOutcome.waiting ↔ (s.chan.queue = [] ∧ s.chan.closed = false)) ∧
    (s.chan.RecvWake.2 = RecvOutcome.waiting ↔ (s.chan.queue = [] ∧ s.chan.closed = false)) ∧
    (¬ (s.chan.queue.length = s.chan.buffer_size ∧ s.chan.closed = false) →
      ((s.chan.Send v).2 = SendOutcome.returned ∨ (s.chan.Send v).2 = SendOutcome.threw) ∧
      ((s.chan.SendWake v).2 = SendOutcome.returned ∨
        (s.chan.SendWake v).2 = SendOutcome.threw)) ∧
    (¬ (s.chan.queue = [] ∧ s.chan.closed = false) →
      (∃ x ok, s.chan.Recv.2 = RecvOutcome.returned x ok) ∧
      (∃ x ok, s.chan.RecvWake.2 = RecvOutcome.returned x ok)) ∧
    (s.chan.queue.length = s.chan.buffer_size → s.chan.closed = false →
      s.chan.SendWake v = ({ s.chan with has_space := false }, SendOutcome.waiting)) ∧
    (s.chan.queue = [] → s.chan.closed = false →
      s.chan.RecvWake = ({ s.chan with has_data := false }, RecvOutcome.waiting)) := by
  have hle := hr.length_le.1
  have hsend : (s.chan.Send v).2 = SendOutcome.waiting ↔
      (s.chan.queue.length = s.chan.buffer_size ∧ s.chan.closed = false) := by
    cases hc : s.chan.closed
    · rcases Nat.lt_or_ge s.chan.queue.length s.chan.buffer_size with hf | hf
      · rw [Send_of_room _ v hc hf]
        constructor
        · intro h; cases h
        · rintro ⟨h, _⟩; omega
      · rw [Send_of_full _ v hc hf]
        exact ⟨fun _ => ⟨Nat.le_antisymm hle hf, rfl⟩, fun _ => rfl⟩
    · rw [Send_of_closed _ v hc]
      constructor
      · intro h; cases h
      · rintro ⟨_, h⟩; cases h
  have hrecv : s.chan.Recv.2 = RecvOutcome.waiting ↔
      (s.chan.queue = [] ∧ s.chan.closed = false) := by
    cases hq : s.chan.queue with
    | nil =>
      cases hc : s.chan.closed
      · rw [Recv_of_nil_open _ hq hc]
        exact ⟨fun _ => ⟨rfl, rfl⟩, fun _ => rfl⟩
      · rw [Recv_of_nil_closed _ hq hc]
        constructor
        · intro h; cases h
        · rintro ⟨_, h⟩; cases h
    | cons x xs =>
      rw [Recv_of_cons _ x xs hq]
      constructor
      · intro h; cases h
      · rintro ⟨h, _⟩; cases h
  have hs3 : ¬ (s.chan.queue.length = s.chan.buffer_size ∧ s.chan.closed = false) →
      ((s.chan.Send v).2 = SendOutcome.returned ∨ (s.chan.Send v).2 = SendOutcome.threw) := by
    intro hn
    cases ho : (s.chan.Send v).2 with
    | returned => exact Or.inl rfl
    | threw => exact Or.inr rfl
    | waiting => exact absurd (hsend.mp ho) hn
  have hr3 : ¬ (s.chan.queue = [] ∧ s.chan.closed = false) →
      ∃ x ok, s.chan.Recv.2 = RecvOutcome.returned x ok := by
    intro hn
    cases ho : s.chan.Recv.2 with
    | returned x ok => exact ⟨x, ok, rfl⟩
    | waiting => exact absurd (hrecv.mp ho) hn
  refine ⟨hsend, ?_, hrecv, ?_, ?_, ?_, ?_, ?_⟩
  · rw [SendWake_eq_Send]; exact hsend
  · rw [RecvWake_eq_Recv]; exact hrecv
  · intro hn; rw [SendWake_eq_Send]; exact ⟨hs3 hn, hs3 hn⟩
  · intro hn; rw [RecvWake_eq_Recv]; exact ⟨hr3 hn, hr3 hn⟩
  · intro hf hc
    rw [SendWake_eq_Send]
    exact Send_of_full _ v hc (Nat.le_of_eq hf.symm)
  · intro hq hc
    rw [RecvWake_eq_Recv]
    exact Recv_of_nil_open _ hq hc

/-- Witness for C12 on `fullEnd` (capacity 2, queue `[1, 2]`, open): `Send(3)`
parks, a woken `Send(3)` resets `has_space` and parks again, `Recv` completes. -/
theorem waits_exactly_when_required_witness :
    Reachable 2 fullEnd ∧
    (fullEnd.chan.Send 3).2 = SendOutcome.waiting ∧
    fullEnd.chan.SendWake 3 = (⟨[1, 2], 2, false, false, true⟩, SendOutcome.waiting) ∧
    (∃ x ok, fullEnd.chan.Recv.2 = RecvOutcome.returned x ok) :=
  ⟨fullEnd_reachable,
   (waits_exactly_when_required 2 fullEnd fullEnd_reachable 3).1.mpr ⟨rfl, rfl⟩,
   (waits_exactly_when_required 2 fullEnd fullEnd_reachable 3).2.2.2.2.2.2.1 rfl rfl,
   ((waits_exactly_when_required 2 fullEnd fullEnd_reachable 3).2.2.2.2.2.1
      (by decide)).1⟩

/-- C13. Concrete scenario on capacity 2: `Send(1)` and `Send(2)` return at
once; `Send(3)` parks with the queue still `[1, 2]` and cannot be woken yet; a
`Recv` returns
`(1, true)` and signals `has_space`; the parked `Send(3)` is woken, resumes and
returns, leaving the queue `[2, 3]`; after `Close`, three `Recv` calls return
`(2, true)`, `(3, true)` and `(default, false)`. -/
theorem scenario_capacity_two :
    scenarioAt 2 = some (⟨[1, 2], 2, false, true, true⟩,
      [Obs.sendReturned, Obs.sendReturned]) ∧
    scenarioAt 3 = some (⟨[1, 2], 2, false, false, true⟩,
      [Obs.sendReturned, Obs.sendReturned, Obs.parked]) ∧
    ((System.init 2).execObs (scenarioRun.take 3 ++ [Action.wake 1])).map (fun r => r.2) = none ∧
    scenarioAt 4 = some (⟨[2], 2, false, true, true⟩,
      [Obs.sendReturned, Obs.sendReturned, Obs.parked, Obs.recvReturned 1 true]) ∧
    scenarioAt 6 = some (⟨[2, 3], 2, false, true, true⟩,
      [Obs.sendReturned, Obs.sendReturned, Obs.parked, Obs.recvReturned 1 true,
       Obs.woke, Obs.sendReturned]) ∧
    scenarioAt 10 = some (⟨[], 2, true, true, true⟩,
      [Obs.sendReturned, Obs.sendReturned, Obs.parked, Obs.recvReturned 1 true,
       Obs.woke, Obs.sendReturned, Obs.closeReturned, Obs.recvReturned 2 true,
       Obs.recvReturned 3 true, Obs.recvReturned default false]) := by
  refine ⟨?_, ?_, ?_, ?_, ?_, ?_⟩ <;> decide

end Channel

namespace Channel

open BufferedChannel

/-- C14, as stated, fails: after one `Send(1)` on capacity 1 the queue is full
and the channel open while `has_space` is still signalled; after a further
`Recv()` the queue is empty and the channel open while `has_data` is still
signalled. -/
theorem signals_iff_fails :
    Reachable 1 filledEnd ∧ filledEnd.chan = ⟨[1], 1, false, true, true⟩ ∧
    ¬ (filledEnd.chan.has_space = true ↔
        (filledEnd.chan.queue.length < filledEnd.chan.buffer_size ∨
          filledEnd.chan.closed = true)) ∧
    Reachable 1 emptiedEnd ∧ emptiedEnd.chan = ⟨[], 1, false, true, true⟩ ∧
    ¬ (emptiedEnd.chan.has_data = true ↔
        (emptiedEnd.chan.queue ≠ [] ∨ emptiedEnd.chan.closed = true)) :=
  ⟨filledEnd_reachable, rfl, by decide, emptiedEnd_reachable, rfl, by decide⟩

/-- C14, amended: in every reachable state, if the queue is shorter than the
capacity or the channel is closed then `has_space` is signalled, and if the
queue is non-empty or the channel is closed then `has_data` is signalled. -/
theorem signals_set_when_condition_met {T : Type} [Inhabited T] (size : Int)
    (s : System T) (hr : Reachable size s) :
    ((s.chan.queue.length < s.chan.buffer_size ∨ s.chan.closed = true) →
      s.chan.has_space = true) ∧
    ((s.chan.queue ≠ [] ∨ s.chan.closed = true) → s.chan.has_data = true) := by
  have hm := hr.reset_meaning
  constructor
  · intro h
    cases hs : s.chan.has_space with
    | true => rfl
    | false =>
      obtain ⟨hf, hc⟩ := hm.1 hs
      rcases h with h | h
      · omega
      · rw [hc] at h; cases h
  · intro h
    cases hd : s.chan.has_data with
    | true => rfl
    | false =>
      obtain ⟨hq, hc⟩ := hm.2 hd
      rcases h with h | h
      · exact absurd hq h
      · rw [hc] at h; cases h

/-- Witness for the amended C14: `emptiedEnd` has room, so `has_space` is
signalled; `filledEnd` holds a value, so `has_data` is signalled. -/
theorem signals_set_when_condition_met_witness :
    Reachable 1 emptiedEnd ∧ emptiedEnd.chan.queue.length < emptiedEnd.chan.buffer_size ∧
    emptiedEnd.chan.has_space = true ∧
    Reachable 1 filledEnd ∧ filledEnd.chan.queue ≠ [] ∧ filledEnd.chan.has_data = true :=
  ⟨emptiedEnd_reachable, by decide,
   (signals_set_when_condition_met 1 emptiedEnd emptiedEnd_reachable).1 (Or.inl (by decide)),
   filledEnd_reachable, by decide,
   (signals_set_when_condition_met 1 filledEnd filledEnd_reachable).2 (Or.inl (by decide))⟩

/-- The calls on `cs` agree with the critical sections on what the thread does next. -/
theorem BufferedChannel.SendTryLock_outcome {T : Type} (c : BufferedChannel T) (v : T) :
    c.SendTryLock.2 = (c.Send v).2 := by
  unfold SendTryLock SendLoopLock Send SendLoop
  split
  · rfl
  · split <;> rfl

/-- Where the lock count of `Send`, `Recv` and `Close` ends, for every state. -/
theorem lockCount_sections {T : Type} (c : BufferedChannel T) :
    lockCount 0 c.SendLock = (if c.closed then none else some 0) ∧
    lockCount 0 c.SendWakeLock = (if c.closed then none else some 0) ∧
    lockCount 0 c.RecvLock = some 0 ∧ lockCount 0 c.RecvWakeLock = some 0 ∧
    lockCount 0 c.CloseLock = some 0 := by
  have hs : lockCount 0 c.SendLock = (if c.closed then none else some 0) := by
    unfold SendLock SendTryLock SendLoopLock
    cases hc : c.closed
    · by_cases hf : c.queue.length ≥ c.buffer_size <;> simp [hf, SendExitLock, lockCount]
    · simp [SendExitLock, lockCount]
  refine ⟨hs, hs, ?_, ?_, rfl⟩
  · unfold RecvLock RecvLoopLock
    cases hc : c.closed <;> cases hq : c.queue <;> simp [lockCount]
  · unfold RecvWakeLock RecvLoopLock
    cases hc : c.closed <;> cases hq : c.queue <;> simp [lockCount]

/-- C15, evaluated on the code.  `Send` on a closed channel calls
`LeaveCriticalSection` twice after one `EnterCriticalSection` (line 34 and then
line 61 in the handler), on first entry and after a wait alike, so the second
call is made by a thread that does not hold the lock.  The other paths (`Send`
returning, `Send` parking, `Recv` in each case, `Close`) release exactly once
and never wait while holding the lock. -/
theorem send_closed_leaves_twice :
    BufferedChannel.SendLock (⟨[4], 2, true, true, true⟩ : BufferedChannel Nat) =
      [LockEvent.enter, LockEvent.leave, LockEvent.leave] ∧
    lockCount 0 (BufferedChannel.SendLock (⟨[4], 2, true, true, true⟩ : BufferedChannel Nat)) =
      none ∧
    BufferedChannel.SendLock (⟨[4, 5], 2, false, true, true⟩ : BufferedChannel Nat) ++
      BufferedChannel.SendWakeLock (⟨[4, 5], 2, true, true, true⟩ : BufferedChannel Nat) =
      [LockEvent.enter, LockEvent.leave, LockEvent.wait,
       LockEvent.enter, LockEvent.leave, LockEvent.leave] ∧
    lockCount 0
      (BufferedChannel.SendLock (⟨[4, 5], 2, false, true, true⟩ : BufferedChannel Nat) ++
       BufferedChannel.SendWakeLock (⟨[4, 5], 2, true, true, true⟩ : BufferedChannel Nat)) =
      none ∧
    lockCount 0 (BufferedChannel.SendLock (⟨[4], 2, false, true, true⟩ : BufferedChannel Nat)) =
      some 0 ∧
    lockCount 0
      (BufferedChannel.SendLock (⟨[4, 5], 2, false, true, true⟩ : BufferedChannel Nat) ++
       BufferedChannel.SendWakeLock (⟨[5], 2, false, true, true⟩ : BufferedChannel Nat)) =
      some 0 ∧
    lockCount 0 (BufferedChannel.RecvLock (⟨[], 2, true, true, true⟩ : BufferedChannel Nat)) =
      some 0 ∧
    lockCount 0
      (BufferedChannel.RecvLock (⟨[], 2, false, true, true⟩ : BufferedChannel Nat) ++
       BufferedChannel.RecvWakeLock (⟨[], 2, true, true, true⟩ : BufferedChannel Nat)) =
      some 0 ∧
    lockCount 0 (BufferedChannel.CloseLock (⟨[4], 2, false, true, true⟩ : BufferedChannel Nat)) =
      some 0 := by
  refine ⟨?_, ?_, ?_, ?_, ?_, ?_, ?_, ?_, ?_⟩ <;> decide

/-- C16. Effect of a successful `Send`: on an open channel whose queue is shorter
than the capacity, either critical section of `Send(v)` returns, appends `v` to
the queue, leaves the capacity and `closed` alone, signals `has_data`, signals
`has_space` when the new length is still below the capacity and leaves
`has_space` as it was when the new length equals the capacity. -/
theorem send_success_effect {T : Type} (c : BufferedChannel T) (v : T)
    (hc : c.closed = false) (hf : c.queue.length < c.buffer_size) :
    (c.Send v).2 = SendOutcome.returned ∧
    (c.Send v).1.queue = c.queue ++ [v] ∧
    (c.Send v).1.buffer_size = c.buffer_size ∧
    (c.Send v).1.closed = c.closed ∧
    (c.Send v).1.has_data = true ∧
    ((c.Send v).1.queue.length < c.buffer_size → (c.Send v).1.has_space = true) ∧
    ((c.Send v).1.queue.length = c.buffer_size → (c.Send v).1.has_space = c.has_space) ∧
    c.SendWake v = c.Send v := by
  rw [Send_of_room c v hc hf]
  refine ⟨rfl, rfl, rfl, rfl, rfl, ?_, ?_,
    (SendWake_eq_Send c v).trans (Send_of_room c v hc hf)⟩
  · intro h
    simp only [List.length_append, List.length_singleton] at h
    simp [h]
  · intro h
    simp only [List.length_append, List.length_singleton] at h
    have : ¬ c.queue.length + 1 < c.buffer_size := by omega
    simp [this]

/-- Witness for C16: on capacity 2 with `has_space` reset, a push onto `[4]`
fills the queue and leaves `has_space` reset, while a push onto the empty queue
leaves room and signals `has_space`. -/
theorem send_success_effect_witness :
    BufferedChannel.Send (⟨[4], 2, false, false, false⟩ : BufferedChannel Nat) 9 =
      (⟨[4, 9], 2, false, false, true⟩, SendOutcome.returned) ∧
    (BufferedChannel.Send (⟨[4], 2, false, false, false⟩ : BufferedChannel Nat) 9).1.has_space =
      false ∧
    BufferedChannel.Send (⟨[], 2, false, false, false⟩ : BufferedChannel Nat) 9 =
      (⟨[9], 2, false, true, true⟩, SendOutcome.returned) ∧
    (BufferedChannel.Send (⟨[], 2, false, false, false⟩ : BufferedChannel Nat) 9).1.has_space =
      true :=
  ⟨rfl,
   (send_success_effect ⟨[4], 2, false, false, false⟩ 9 rfl (by decide)).2.2.2.2.2.2.1 rfl,
   rfl,
   (send_success_effect ⟨[], 2, false, false, false⟩ 9 rfl (by decide)).2.2.2.2.2.1
     (by decide)⟩

/-- C17. No lost wake-up on an open channel: in every reachable state a reset
`has_space` means the queue is full and the channel open, and a reset `has_data`
means the queue is empty and the channel open; so a parked thread that cannot
be woken is waiting for a condition that is unmet.  Every section that makes a
condition true signals the event in the same step: a pop signals `has_space`, a
push signals `has_data`, and after `Close` both are signalled. -/
theorem reset_signal_means_unmet {T : Type} [Inhabited T] (size : Int)
    (s : System T) (hr : Reachable size s) :
    (s.chan.has_space = false →
      s.chan.queue.length = s.chan.buffer_size ∧ s.chan.closed = false) ∧
    (s.chan.has_data = false → s.chan.queue = [] ∧ s.chan.closed = false) ∧
    (∀ tid v, s.pc tid = Pc.sendWait v → s.step (Action.wake tid) = none →
      s.chan.queue.length = s.chan.buffer_size ∧ s.chan.closed = false) ∧
    (∀ tid, s.pc tid = Pc.recvWait → s.step (Action.wake tid) = none →
      s.chan.queue = [] ∧ s.chan.closed = false) ∧
    (∀ x xs, s.chan.queue = x :: xs →
      s.chan.Recv.1.has_space = true ∧ s.chan.RecvWake.1.has_space = true) ∧
    (∀ v, s.chan.closed = false → s.chan.queue.length < s.chan.buffer_size →
      (s.chan.Send v).1.has_data = true ∧ (s.chan.SendWake v).1.has_data = true) ∧
    (s.chan.Close.has_space = true ∧ s.chan.Close.has_data = true) := by
  have hm := hr.reset_meaning
  have hle := hr.length_le.1
  have h1 : s.chan.has_space = false →
      s.chan.queue.length = s.chan.buffer_size ∧ s.chan.closed = false :=
    fun hs => ⟨Nat.le_antisymm hle (hm.1 hs).1, (hm.1 hs).2⟩
  refine ⟨h1, hm.2, ?_, ?_, ?_, ?_, ?_⟩
  · intro tid v hp hn
    apply h1
    cases hs : s.chan.has_space with
    | false => rfl
    | true => simp [System.step, hp, hs] at hn
  · intro tid hp hn
    apply hm.2
    cases hd : s.chan.has_data with
    | false => rfl
    | true => simp [System.step, hp, hd] at hn
  · intro x xs hq
    rw [RecvWake_eq_Recv, Recv_of_cons _ x xs hq]
    exact ⟨rfl, rfl⟩
  · intro v hc hf
    rw [SendWake_eq_Send, Send_of_room _ v hc hf]
    exact ⟨rfl, rfl⟩
  · cases hc : s.chan.closed
    · simp [BufferedChannel.Close, hc]
    · have h2 : s.chan.Close = s.chan := by simp [BufferedChannel.Close, hc]
      rw [h2]
      exact hr.closed_events hc

/-- Witness for C17 on `blockedEnd` (capacity 1, queue `[1]`, open, `has_space`
reset, thread 1 parked in `Send(2)`): the queue is full, thread 1 cannot be woken,
and the pop that frees the slot signals `has_space`. -/
theorem reset_signal_means_unmet_witness :
    Reachable 1 blockedEnd ∧ blockedEnd.chan = ⟨[1], 1, false, false, true⟩ ∧
    blockedEnd.pc 1 = Pc.sendWait 2 ∧
    (blockedEnd.chan.queue.length = blockedEnd.chan.buffer_size ∧
      blockedEnd.chan.closed = false) ∧
    (blockedEnd.chan.Recv.1.has_space = true ∧ blockedEnd.chan.RecvWake.1.has_space = true) :=
  ⟨blockedEnd_reachable, rfl, rfl,
   (reset_signal_means_unmet 1 blockedEnd blockedEnd_reachable).1 rfl,
   (reset_signal_means_unmet 1 blockedEnd blockedEnd_reachable).2.2.2.2.1 1 [] rfl⟩

end Channel
